import Mathlib

set_option maxHeartbeats 1000000

/-!
Shallow embedding of the `vello_hybrid` sparse-strips renderer core
(`sparse_strips/vello_hybrid/src/scene.rs`) together with the parts of the
geometry-support crate (`vello_common`) and the packed-record module
(`render.rs`) that the `Scene` type depends on.  Machine integers (`u16`,
`u32`, `usize`) are modelled as `Nat`; floating-point coordinates are
modelled as rationals.  Fallible code paths (Rust `unimplemented!`,
`expect`, out-of-bounds indexing) are modelled with `Except String`.
-/

/-- A straight line segment in device space (`vello_common::flatten::Line`);
coordinates are modelled as rationals standing in for `f32`. -/
structure Line where
  x0 : ℚ
  y0 : ℚ
  x1 : ℚ
  y1 : ℚ
  deriving DecidableEq

/-- Modelled from the spec: a Tile is a transient association of a grid cell
with a line segment, produced by the Tiler (spec section 4.2). -/
structure TileEntry where
  tileX : Nat
  tileY : Nat
  lineIdx : Nat
  deriving DecidableEq

/-- The Tiler's scratch collection (`vello_common::tile::Tiles`), reduced to
its association list; `Tiles::reset` clears it. -/
abbrev Tiles := List TileEntry

/-- Fixed tile height in pixels (`Tile::HEIGHT`); the spec fixes it to 4 px
in the reference configuration (spec section 3, and `Config.strip_height`). -/
def Tile.HEIGHT : Nat := 4

/-- Fixed wide-tile width in pixels (`WideTile::WIDTH`), the reference
configuration's hardware-friendly span (spec sections 3 and 6). -/
def WideTile.WIDTH : Nat := 256

/-- Affine transform, as in the external `kurbo` crate: coefficient order
`(xx, yx, xy, yy, tx, ty)`; maps `(x, y)` to
`(xx*x + xy*y + tx, yx*x + yy*y + ty)`.  Modelled over `ℚ`. -/
structure Affine where
  xx : ℚ
  yx : ℚ
  xy : ℚ
  yy : ℚ
  tx : ℚ
  ty : ℚ
  deriving DecidableEq

/-- The identity transform (`Affine::IDENTITY`). -/
def Affine.IDENTITY : Affine := ⟨1, 0, 0, 1, 0, 0⟩

/-- Affine composition following `kurbo`: `(m.mul n).apply p = m.apply (n.apply p)`;
mirrors Rust `m * n`. -/
def Affine.mul (m n : Affine) : Affine :=
  { xx := m.xx * n.xx + m.xy * n.yx
    yx := m.yx * n.xx + m.yy * n.yx
    xy := m.xx * n.xy + m.xy * n.yy
    yy := m.yx * n.xy + m.yy * n.yy
    tx := m.xx * n.tx + m.xy * n.ty + m.tx
    ty := m.yx * n.tx + m.yy * n.ty + m.ty }

/-- Apply an affine transform to a point (`Affine * Point` in kurbo). -/
def Affine.apply (m : Affine) (p : ℚ × ℚ) : ℚ × ℚ :=
  (m.xx * p.1 + m.xy * p.2 + m.tx, m.yx * p.1 + m.yy * p.2 + m.ty)

/-- A reference into the encoded-paint table (`vello_common::paint::IndexedPaint`);
`index` is what `IndexedPaint::index()` returns. -/
structure IndexedPaint where
  index : Nat
  deriving DecidableEq

/-- Resolved paint (`vello_common::paint::Paint`): either an immediate solid
color (packed RGBA `u32`, as produced by `to_u32`) or an index into the
encoded-paint table.  The `Unsupported` arm stands for every paint variant
the hybrid renderer's match arms send to `unimplemented!` (the source
matches on `Solid` and `Indexed` and has a wildcard arm). -/
inductive Paint where
  | Solid (color : Nat)
  | Indexed (paint : IndexedPaint)
  | Unsupported
  deriving DecidableEq

/-- An image paint as authored (`vello_common::paint::Image`): its placement
transform, the per-axis extend-mode codes, and an opaque source id. -/
structure ImagePaint where
  transform : Affine
  extendModes : Nat × Nat
  image : Nat
  deriving DecidableEq

/-- Modelled from the spec: a resolved image paint (`EncodedImage` inside
`vello_common::encode::EncodedPaint`): the composed transform, the two
independent extend-mode codes, and the two per-axis advance vectors
(spec sections 3 and 4.5). -/
structure EncodedImage where
  transform : Affine
  extendModes : Nat × Nat
  x_advance : ℚ × ℚ
  y_advance : ℚ × ℚ
  deriving DecidableEq

/-- Resolved non-solid paint table entry (`vello_common::encode::EncodedPaint`);
a closed sum with an image arm and the arms the packer does not recognize
(spec section 9: closed sum types with an explicit unsupported arm). -/
inductive EncodedPaint where
  | Image (image : EncodedImage)
  | Unsupported
  deriving DecidableEq

/-- An opaque fill command (`vello_common::coarse::Cmd::Fill` payload):
x offset within the wide tile, span width, paint. -/
structure CmdFill where
  x : Nat
  width : Nat
  paint : Paint
  deriving DecidableEq

/-- An alpha-blended fill command (`Cmd::AlphaFill` payload): x offset within
the wide tile, span width, offset of its claim in the alpha buffer, paint. -/
structure CmdAlphaFill where
  x : Nat
  width : Nat
  alpha_idx : Nat
  paint : Paint
  deriving DecidableEq

/-- Wide-tile draw command (`vello_common::coarse::Cmd`); the `Unsupported`
arm stands for the variants the packer's wildcard arm rejects. -/
inductive Cmd where
  | Fill (cmd : CmdFill)
  | AlphaFill (cmd : CmdAlphaFill)
  | Unsupported
  deriving DecidableEq

/-- One wide tile (`vello_common::coarse::WideTile`): a background color
(packed premultiplied RGBA; `0` is fully transparent) and the ordered
command list.  `bg` models `self.bg.to_u32()`. -/
structure WideTile where
  bg : Nat
  cmds : List Cmd
  deriving DecidableEq

/-- The empty wide tile: fully transparent background, no commands. -/
def WideTile.empty : WideTile := ⟨0, []⟩

/-- The wide-tile grid (`vello_common::coarse::Wide`), row-major. -/
structure Wide where
  tiles : List WideTile
  deriving DecidableEq

/-- Number of wide tiles per row: `width.div_ceil(WideTile::WIDTH)`. -/
def widePerRow (width : Nat) : Nat := (width + (WideTile.WIDTH - 1)) / WideTile.WIDTH

/-- Number of wide-tile rows: `height.div_ceil(Tile::HEIGHT)`. -/
def widePerCol (height : Nat) : Nat := (height + (Tile.HEIGHT - 1)) / Tile.HEIGHT

/-- Modelled from the spec: `Wide::new` allocates the row-major grid of empty
wide tiles covering the surface (spec section 3). -/
def Wide.new (width height : Nat) : Wide :=
  ⟨List.replicate (widePerCol height * widePerRow width) WideTile.empty⟩

/-- Modelled from the spec: `Wide::reset` clears every tile's background and
command list, keeping the grid dimensions (spec sections 3 and 4.4). -/
def Wide.reset (w : Wide) : Wide :=
  ⟨w.tiles.map (fun _ => WideTile.empty)⟩

/-- A coverage strip (`vello_common::strip::Strip`): starting position, width,
the sub-width needing per-pixel blending, and its alpha-buffer offset
(spec section 3). -/
structure Strip where
  x : Nat
  y : Nat
  width : Nat
  dense_width : Nat
  alpha_idx : Nat
  deriving DecidableEq

/-- Stroke joins (`kurbo::Join`, external). -/
inductive Join where
  | Bevel
  | Miter
  | Round
  deriving DecidableEq

/-- Stroke caps (`kurbo::Cap`, external). -/
inductive Cap where
  | Butt
  | Square
  | Round
  deriving DecidableEq

/-- Stroke style (`kurbo::Stroke`, external), reduced to the fields the
Scene sets or defaults. -/
structure Stroke where
  width : ℚ
  miter_limit : ℚ
  join : Join
  start_cap : Cap
  end_cap : Cap
  dash_pattern : List ℚ
  dash_offset : ℚ
  deriving DecidableEq

/-- `kurbo::Stroke::default()`. -/
def Stroke.default : Stroke :=
  { width := 1, miter_limit := 4, join := Join.Round,
    start_cap := Cap.Round, end_cap := Cap.Round,
    dash_pattern := [], dash_offset := 0 }

/-- Fill rule (`peniko::Fill`, external closed enum). -/
inductive Fill where
  | NonZero
  | EvenOdd
  deriving DecidableEq

/-- Blend mode (`peniko::BlendMode`, external), reduced to its two code
fields. -/
structure BlendMode where
  mix : Nat
  compose : Nat
  deriving DecidableEq

/-- `BlendMode::new`. -/
def BlendMode.new (m c : Nat) : BlendMode := ⟨m, c⟩

/-- `peniko::Mix::Normal` code. -/
def Mix.Normal : Nat := 0

/-- `peniko::Compose::SrcOver` code. -/
def Compose.SrcOver : Nat := 3

/-- The paint the user sets on the scene (`vello_common::paint::PaintType`):
a solid color (packed RGBA `u32`), an image paint, or one of the variants
`encode_current_paint`'s wildcard arm rejects. -/
inductive PaintType where
  | Solid (color : Nat)
  | Image (image : ImagePaint)
  | Unsupported
  deriving DecidableEq

/-- `css::BLACK.to_u32()`: opaque black packed as RGBA. -/
def BLACK : Nat := 0xff

/-- A path (`kurbo::BezPath`, external).  Flattening is delegated to the
geometry library (spec section 4.1), so only an opaque payload is kept. -/
structure BezPath where
  elements : List Nat
  deriving DecidableEq

/-- A rectangle (`kurbo::Rect`, external). -/
structure Rect where
  x0 : ℚ
  y0 : ℚ
  x1 : ℚ
  y1 : ℚ
  deriving DecidableEq

/-- The final packed record (`vello_hybrid`'s `render::GpuStrip`; layout per
spec section 6 and the construction sites in `Scene::prepare_render_data`). -/
structure GpuStrip where
  x : Nat
  y : Nat
  width : Nat
  dense_width : Nat
  paint_type : Nat
  paint_index : Nat
  paint_data : Nat
  x_advance : ℚ × ℚ
  y_advance : ℚ × ℚ
  deriving DecidableEq

/-- The packer's output (`render::RenderData`): the record list plus the
alpha-buffer snapshot. -/
structure RenderData where
  strips : List GpuStrip
  alphas : List Nat
  deriving DecidableEq

/-- The render context (`vello_hybrid::Scene`), field for field. -/
structure Scene where
  width : Nat
  height : Nat
  wide : Wide
  alphas : List Nat
  line_buf : List Line
  tiles : Tiles
  strip_buf : List Strip
  encoded_paints : List EncodedPaint
  upload_paints : List IndexedPaint
  paint : PaintType
  stroke : Stroke
  transform : Affine
  fill_rule : Fill
  blend_mode : BlendMode
  deriving DecidableEq

/-- `Scene::new`: fresh buffers and the default render state
(`Scene::default_render_state`). -/
def Scene.new (width height : Nat) : Scene :=
  { width := width
    height := height
    wide := Wide.new width height
    alphas := []
    line_buf := []
    tiles := []
    strip_buf := []
    encoded_paints := []
    upload_paints := []
    paint := PaintType.Solid BLACK
    stroke := { Stroke.default with
                  width := 1, join := Join.Bevel,
                  start_cap := Cap.Butt, end_cap := Cap.Butt }
    transform := Affine.IDENTITY
    fill_rule := Fill.NonZero
    blend_mode := BlendMode.new Mix.Normal Compose.SrcOver }

/-- `Scene::reset`: clears the wide-tile grid, the alpha, line, tile and
strip buffers, and restores the default render state.  The encoded-paint
table and the upload queue are not touched. -/
def Scene.reset (s : Scene) : Scene :=
  { s with
    wide := s.wide.reset
    alphas := []
    line_buf := []
    tiles := []
    strip_buf := []
    paint := PaintType.Solid BLACK
    stroke := { Stroke.default with
                  width := 1, join := Join.Bevel,
                  start_cap := Cap.Butt, end_cap := Cap.Butt }
    transform := Affine.IDENTITY
    fill_rule := Fill.NonZero
    blend_mode := BlendMode.new Mix.Normal Compose.SrcOver }

/-- `Scene::set_fill_rule`. -/
def Scene.set_fill_rule (s : Scene) (fill_rule : Fill) : Scene :=
  { s with fill_rule := fill_rule }

/-- `Scene::set_paint`. -/
def Scene.set_paint (s : Scene) (paint : PaintType) : Scene :=
  { s with paint := paint }

/-- `Scene::set_transform`. -/
def Scene.set_transform (s : Scene) (transform : Affine) : Scene :=
  { s with transform := transform }

/-- Pack two `u16` values into one `u32` using native (little-endian) byte
order (`pack_u16s_to_u32` in `scene.rs`): the first value occupies the low
16 bits of the resulting word, the second the high 16 bits. -/
def pack_u16s_to_u32 (a b : Nat) : Nat := a % 65536 + (b % 65536) * 65536

/-- Rust `f64 as u16` (used for the truncated image sample coordinates):
saturating cast, truncation toward zero. -/
def ratToU16 (q : ℚ) : Nat :=
  if q ≤ 0 then 0 else min 65535 (Int.toNat ⌊q⌋)

/-- Effectful map over a list in the `Except` monad, mirroring the packer's
for-loop that pushes one record per command and aborts on the first
unsupported case. -/
def mapME (f : α → Except String β) : List α → Except String (List β)
  | [] => Except.ok []
  | a :: l =>
    match f a with
    | Except.error e => Except.error e
    | Except.ok b =>
      match mapME f l with
      | Except.error e => Except.error e
      | Except.ok bs => Except.ok (b :: bs)

/-- The paint-resolution match inside the packer's `Cmd::Fill` arm: yields
`(paint_type, paint_index, paint_data, x_advance, y_advance)`.  A solid
color packs as the opaque-solid variant; an indexed paint resolving to an
encoded image packs as the image variant; an index that misses the table or
hits a non-image entry yields the all-zero default tuple; any other paint
variant is `unimplemented!`. -/
def fillPaintTuple (encoded_paints : List EncodedPaint) (strip_x strip_y : Nat) :
    Paint → Except String (Nat × Nat × Nat × (ℚ × ℚ) × (ℚ × ℚ))
  | Paint.Solid color =>
    Except.ok (0, 0, color, (0, 0), (0, 0))
  | Paint.Indexed indexed_paint =>
    match encoded_paints.get? indexed_paint.index with
    | some (EncodedPaint.Image encoded_image) =>
      let start_p := encoded_image.transform.apply ((strip_x : ℚ), (strip_y : ℚ))
      let u0 := ratToU16 start_p.1
      let v0 := ratToU16 start_p.2
      Except.ok (2, pack_u16s_to_u32 u0 v0,
        pack_u16s_to_u32 encoded_image.extendModes.1 encoded_image.extendModes.2,
        encoded_image.x_advance, encoded_image.y_advance)
    | some _ => Except.ok (0, 0, 0, (0, 0), (0, 0))
    | none => Except.ok (0, 0, 0, (0, 0), (0, 0))
  | Paint.Unsupported => Except.error ("unsupported paint type")

/-- The paint-resolution match inside the packer's `Cmd::AlphaFill` arm.
For a solid color the alpha-buffer column is `alpha_idx / Tile::HEIGHT`,
which must fit in a `u16` (`try_into().expect(..)`); the indexed arm is the
same resolution as in the `Fill` arm. -/
def alphaFillPaintTuple (encoded_paints : List EncodedPaint)
    (strip_x strip_y alpha_idx : Nat) :
    Paint → Except String (Nat × Nat × Nat × (ℚ × ℚ) × (ℚ × ℚ))
  | Paint.Solid color =>
    let alpha_col := alpha_idx / Tile.HEIGHT
    if alpha_col ≤ 65535 then
      Except.ok (1, alpha_col, color, (0, 0), (0, 0))
    else
      Except.error ("GpuStrip fields use u16 and values are expected to fit within that range")
  | Paint.Indexed indexed_paint =>
    match encoded_paints.get? indexed_paint.index with
    | some (EncodedPaint.Image encoded_image) =>
      let start_p := encoded_image.transform.apply ((strip_x : ℚ), (strip_y : ℚ))
      let sample_x := ratToU16 start_p.1
      let sample_y := ratToU16 start_p.2
      Except.ok (2, pack_u16s_to_u32 sample_x sample_y,
        pack_u16s_to_u32 encoded_image.extendModes.1 encoded_image.extendModes.2,
        encoded_image.x_advance, encoded_image.y_advance)
    | some _ => Except.ok (0, 0, 0, (0, 0), (0, 0))
    | none => Except.ok (0, 0, 0, (0, 0), (0, 0))
  | Paint.Unsupported => Except.error ("unsupported paint type")

/-- One iteration of the packer's command loop: one `GpuStrip` per `Fill`
or `AlphaFill` command at the wide tile's device origin; other command
variants are `unimplemented!`.  A `Fill` record has `dense_width = 0`, an
`AlphaFill` record has `dense_width = width`. -/
def packCmd (encoded_paints : List EncodedPaint) (wide_tile_x wide_tile_y : Nat) :
    Cmd → Except String GpuStrip
  | Cmd.Fill cmd =>
    let strip_x := wide_tile_x + cmd.x
    let strip_y := wide_tile_y
    match fillPaintTuple encoded_paints strip_x strip_y cmd.paint with
    | Except.error e => Except.error e
    | Except.ok (paint_type, paint_index, paint_data, x_advance, y_advance) =>
      Except.ok { x := strip_x, y := strip_y, width := cmd.width, dense_width := 0,
                  paint_type := paint_type, paint_index := paint_index,
                  paint_data := paint_data, x_advance := x_advance, y_advance := y_advance }
  | Cmd.AlphaFill cmd =>
    let strip_x := wide_tile_x + cmd.x
    let strip_y := wide_tile_y
    match alphaFillPaintTuple encoded_paints strip_x strip_y cmd.alpha_idx cmd.paint with
    | Except.error e => Except.error e
    | Except.ok (paint_type, paint_index, paint_data, x_advance, y_advance) =>
      Except.ok { x := strip_x, y := strip_y, width := cmd.width, dense_width := cmd.width,
                  paint_type := paint_type, paint_index := paint_index,
                  paint_data := paint_data, x_advance := x_advance, y_advance := y_advance }
  | Cmd.Unsupported => Except.error ("unsupported command")

/-- The background record pushed for a wide tile whose background is not
fully transparent: full wide-tile width, opaque-solid tag, the background
color as the data word, zero advances. -/
def bgStripOf (wide_tile_x wide_tile_y bg : Nat) : GpuStrip :=
  { x := wide_tile_x, y := wide_tile_y, width := WideTile.WIDTH, dense_width := 0,
    paint_type := 0, paint_index := 0, paint_data := bg,
    x_advance := (0, 0), y_advance := (0, 0) }

/-- One iteration of the packer's per-tile loop body: the optional
background record followed by one record per command.  Indexing past the
wide-tile grid is the Rust `self.wide.tiles[idx]` panic. -/
def packTile (s : Scene) (wide_tile_row wide_tile_col : Nat) :
    Except String (List GpuStrip) :=
  let wide_tiles_per_row := widePerRow s.width
  let wide_tile_idx := wide_tile_row * wide_tiles_per_row + wide_tile_col
  match s.wide.tiles.get? wide_tile_idx with
  | none => Except.error ("wide tile index out of bounds")
  | some wide_tile =>
    let wide_tile_x := wide_tile_col * WideTile.WIDTH
    let wide_tile_y := wide_tile_row * Tile.HEIGHT
    let bgStrips := if wide_tile.bg ≠ 0 then [bgStripOf wide_tile_x wide_tile_y wide_tile.bg] else []
    match mapME (packCmd s.encoded_paints wide_tile_x wide_tile_y) wide_tile.cmds with
    | Except.error e => Except.error e
    | Except.ok cmdStrips => Except.ok (bgStrips ++ cmdStrips)

/-- One iteration of the packer's per-row loop: the concatenation of all
tiles of that row, in increasing column order. -/
def packRow (s : Scene) (wide_tile_row : Nat) : Except String (List GpuStrip) :=
  match mapME (packTile s wide_tile_row) (List.range (widePerRow s.width)) with
  | Except.error e => Except.error e
  | Except.ok tileStrips => Except.ok tileStrips.flatten

/-- `Scene::prepare_render_data`: walks the wide-tile grid in row-major
order, emitting one record per background fill and per command, and snapshots
the alpha buffer. -/
def Scene.prepare_render_data (s : Scene) : Except String RenderData :=
  match mapME (packRow s) (List.range (widePerCol s.height)) with
  | Except.error e => Except.error e
  | Except.ok rowStrips => Except.ok { strips := rowStrips.flatten, alphas := s.alphas }

/-- Modelled from the spec: the advance vectors of an encoded image paint —
the image-space displacement per one-device-pixel step along each device
axis, derived from the inverse of the composed transform's linear part
(spec sections 3 and 4.5).  A singular linear part yields zero advances. -/
def advanceVectors (t : Affine) : (ℚ × ℚ) × (ℚ × ℚ) :=
  let det := t.xx * t.yy - t.xy * t.yx
  if det = 0 then ((0, 0), (0, 0))
  else ((t.yy / det, -t.yx / det), (-t.xy / det, t.xx / det))

/-- Modelled from the spec: `EncodeExt::encode_into` for an image paint —
stores the composed transform and the two independent extend modes in a new
`EncodedPaint::Image` entry appended to the encoded-paint table, precomputes
the two per-axis advance vectors, and returns `Paint::Indexed` referencing
the new entry (spec section 4.5). -/
def encode_into (i : ImagePaint) (encoded_paints : List EncodedPaint) :
    Paint × List EncodedPaint :=
  let adv := advanceVectors i.transform
  let entry := EncodedPaint.Image
    { transform := i.transform, extendModes := i.extendModes,
      x_advance := adv.1, y_advance := adv.2 }
  (Paint.Indexed ⟨encoded_paints.length⟩, encoded_paints ++ [entry])

/-- `Scene::encode_current_paint`: a solid color becomes `Paint::Solid`
unchanged; an image paint has its transform composed with the scene
transform, is encoded into the table, and the resulting indexed paint is
pushed onto the upload queue; any other paint variant is `unimplemented!`. -/
def Scene.encode_current_paint (s : Scene) : Except String (Paint × Scene) :=
  match s.paint with
  | PaintType.Solid color => Except.ok (Paint.Solid color, s)
  | PaintType.Image i =>
    let i2 := { i with transform := s.transform.mul i.transform }
    let pe := encode_into i2 s.encoded_paints
    let upload2 :=
      match pe.1 with
      | Paint.Indexed indexed_paint => s.upload_paints ++ [indexed_paint]
      | _ => s.upload_paints
    Except.ok (pe.1, { s with encoded_paints := pe.2, upload_paints := upload2 })
  | PaintType.Unsupported => Except.error ("unsupported paint type")

/-- The geometry-support library (`vello_common`'s flattener, tiler, strip
generator and wide-tile compositor), abstracted as the spec treats it: a
bundle of pure functions against which the `Scene` methods are defined
(spec sections 2, 4.1 through 4.4).  `flattenFillNew` and
`flattenStrokeNew` give the lines a call to `flatten::fill` or
`flatten::stroke` appends to the caller's buffer (the contract of spec
section 4.1: append-only, never removes existing entries);
`stripRender` gives the strip buffer contents plus the alpha bytes the call
appends; `wideGenerate` folds the strips into the wide-tile grid. -/
structure GeomLib where
  flattenFillNew : BezPath → Affine → List Line
  flattenStrokeNew : BezPath → Stroke → Affine → List Line
  rectToPath : Rect → ℚ → BezPath
  makeTiles : List Line → Nat → Nat → Tiles
  sortTiles : Tiles → Tiles
  stripRender : Tiles → Fill → List Line → List Strip × List Nat
  wideGenerate : List Strip → Fill → Paint → Wide → Wide

/-- `Scene::render_path`: tiles the accumulated lines, sorts, renders strips
(replacing the strip buffer and appending to the alpha buffer), and folds
the strips into the wide-tile grid under the given fill rule and paint. -/
def Scene.render_path (G : GeomLib) (s : Scene) (fill_rule : Fill) (paint : Paint) : Scene :=
  let tiles2 := G.sortTiles (G.makeTiles s.line_buf s.width s.height)
  let sr := G.stripRender tiles2 fill_rule s.line_buf
  { s with
    tiles := tiles2
    strip_buf := sr.1
    alphas := s.alphas ++ sr.2
    wide := G.wideGenerate sr.1 fill_rule paint s.wide }

/-- `Scene::fill_path`: flattens the path for filling (appending to the line
buffer), encodes the current paint, and renders under the scene's fill rule. -/
def Scene.fill_path (G : GeomLib) (s : Scene) (path : BezPath) : Except String Scene :=
  let s1 := { s with line_buf := s.line_buf ++ G.flattenFillNew path s.transform }
  match s1.encode_current_paint with
  | Except.error e => Except.error e
  | Except.ok (paint, s2) => Except.ok (s2.render_path G s2.fill_rule paint)

/-- `Scene::stroke_path`: flattens the stroke outline (appending to the line
buffer), encodes the current paint, and renders with `Fill::NonZero`. -/
def Scene.stroke_path (G : GeomLib) (s : Scene) (path : BezPath) : Except String Scene :=
  let s1 := { s with line_buf := s.line_buf ++ G.flattenStrokeNew path s.stroke s.transform }
  match s1.encode_current_paint with
  | Except.error e => Except.error e
  | Except.ok (paint, s2) => Except.ok (s2.render_path G Fill.NonZero paint)

/-- Default flattening tolerance (`DEFAULT_TOLERANCE`). -/
def DEFAULT_TOLERANCE : ℚ := 1 / 10

/-- `Scene::fill_rect`: fills the rectangle's path. -/
def Scene.fill_rect (G : GeomLib) (s : Scene) (rect : Rect) : Except String Scene :=
  s.fill_path G (G.rectToPath rect DEFAULT_TOLERANCE)

/-- `Scene::stroke_rect`: strokes the rectangle's path. -/
def Scene.stroke_rect (G : GeomLib) (s : Scene) (rect : Rect) : Except String Scene :=
  s.stroke_path G (G.rectToPath rect DEFAULT_TOLERANCE)

/-- A prepared glyph outline (`vello_common::glyph::PreparedGlyph::Outline`):
the glyph's path and its placement transform. -/
structure PreparedGlyph where
  path : BezPath
  transform : Affine
  deriving DecidableEq

/-- `GlyphRenderer::fill_glyph` for `Scene`: flattens the glyph outline under
the glyph transform (appending to the line buffer), encodes the current
paint, and renders with `Fill::NonZero`. -/
def Scene.fill_glyph (G : GeomLib) (s : Scene) (glyph : PreparedGlyph) : Except String Scene :=
  let s1 := { s with line_buf := s.line_buf ++ G.flattenFillNew glyph.path glyph.transform }
  match s1.encode_current_paint with
  | Except.error e => Except.error e
  | Except.ok (paint, s2) => Except.ok (s2.render_path G Fill.NonZero paint)

/-- `GlyphRenderer::stroke_glyph` for `Scene`: flattens the glyph's stroke
outline under the glyph transform (appending to the line buffer), encodes
the current paint, and renders with `Fill::NonZero`. -/
def Scene.stroke_glyph (G : GeomLib) (s : Scene) (glyph : PreparedGlyph) : Except String Scene :=
  let s1 := { s with line_buf := s.line_buf ++ G.flattenStrokeNew glyph.path s.stroke glyph.transform }
  match s1.encode_current_paint with
  | Except.error e => Except.error e
  | Except.ok (paint, s2) => Except.ok (s2.render_path G Fill.NonZero paint)

/-- Append a command to the cmd list of the tile at the given index, leaving
all other tiles unchanged. -/
def appendCmdTiles : List WideTile → Nat → Cmd → List WideTile
  | [], _, _ => []
  | t :: ts, 0, c => { t with cmds := t.cmds ++ [c] } :: ts
  | t :: ts, n + 1, c => t :: appendCmdTiles ts n c

/-- Modelled from the spec: the Wide-Tile Compositor appends one command to
its owning wide tile (spec section 4.4: each draw call appends, never
replaces, preserving draw order). -/
def Wide.appendCmd (w : Wide) (idx : Nat) (cmd : Cmd) : Wide :=
  ⟨appendCmdTiles w.tiles idx cmd⟩

/-- Modelled from the spec: the effect of one draw call on the wide-tile
grid — the draw's commands, each addressed to its owning wide tile, are
appended in order (spec section 4.4). -/
def applyDraw (draw : List (Nat × Cmd)) (w : Wide) : Wide :=
  draw.foldl (fun w2 ic => w2.appendCmd ic.1 ic.2) w

deriving instance DecidableEq for Except

/-- The x offset a command contributes to its record's device position. -/
def cmdOffX : Cmd → Nat
  | Cmd.Fill c => c.x
  | Cmd.AlphaFill c => c.x
  | Cmd.Unsupported => 0

/-- Row-major order on packed records: `(y, x)` pairs compared
lexicographically. -/
def rowMajorLE (a b : GpuStrip) : Prop := a.y < b.y ∨ (a.y = b.y ∧ a.x ≤ b.x)

instance : DecidableRel rowMajorLE := fun a b => by
  unfold rowMajorLE
  infer_instance

theorem rowMajorLE_trans {a b c : GpuStrip} (h1 : rowMajorLE a b) (h2 : rowMajorLE b c) :
    rowMajorLE a c := by
  rcases h1 with h1 | ⟨h1y, h1x⟩ <;> rcases h2 with h2 | ⟨h2y, h2x⟩
  · exact Or.inl (h1.trans h2)
  · exact Or.inl (h2y ▸ h1)
  · exact Or.inl (h1y ▸ h2)
  · exact Or.inr ⟨h1y.trans h2y, h1x.trans h2x⟩

theorem mapME_ok_forall₂ {α β : Type} {f : α → Except String β} :
    ∀ {l : List α} {ys : List β}, mapME f l = Except.ok ys →
      List.Forall₂ (fun a b => f a = Except.ok b) l ys := by
  intro l
  induction l with
  | nil =>
    intro ys h
    simp only [mapME] at h
    cases h
    exact List.Forall₂.nil
  | cons a l ih =>
    intro ys h
    simp only [mapME] at h
    cases hfa : f a with
    | error e => rw [hfa] at h; cases h
    | ok b =>
      rw [hfa] at h
      cases hml : mapME f l with
      | error e => rw [hml] at h; cases h
      | ok bs =>
        rw [hml] at h
        cases h
        exact List.Forall₂.cons hfa (ih hml)

theorem mapME_ok_of_forall {α β : Type} {f : α → Except String β} {g : α → β} :
    ∀ {l : List α}, (∀ a ∈ l, f a = Except.ok (g a)) → mapME f l = Except.ok (l.map g) := by
  intro l
  induction l with
  | nil => intro _; rfl
  | cons a l ih =>
    intro h
    simp only [mapME, h a (List.mem_cons_self a l), ih (fun b hb => h b (List.mem_cons_of_mem a hb)),
      List.map_cons]

theorem forall₂_mem_right {α β : Type} {Q : α → β → Prop} :
    ∀ {l : List α} {ys : List β}, List.Forall₂ Q l ys → ∀ y ∈ ys, ∃ a ∈ l, Q a y := by
  intro l ys h
  induction h with
  | nil => intro y hy; cases hy
  | cons hq _ ih =>
    intro y hy
    rcases List.mem_cons.mp hy with rfl | hy2
    · exact ⟨_, List.mem_cons_self _ _, hq⟩
    · obtain ⟨a, ha, hqa⟩ := ih y hy2
      exact ⟨a, List.mem_cons_of_mem _ ha, hqa⟩

theorem forall₂_pairwise {α β : Type} {Q : α → β → Prop} {R : α → α → Prop}
    {R2 : β → β → Prop} :
    ∀ {l : List α} {ys : List β}, List.Forall₂ Q l ys → List.Pairwise R l →
      (∀ a x b y, Q a x → Q b y → R a b → R2 x y) → List.Pairwise R2 ys := by
  intro l ys h
  induction h with
  | nil => intro _ _; exact List.Pairwise.nil
  | @cons a x l ys hq hql ih =>
    intro hp himp
    rcases List.pairwise_cons.mp hp with ⟨hr, hpl⟩
    refine List.Pairwise.cons ?_ (ih hpl himp)
    intro y hy
    obtain ⟨b, hb, hqb⟩ := forall₂_mem_right hql y hy
    exact himp a x b y hq hqb (hr b hb)

theorem packCmd_ok_xy {ep : List EncodedPaint} {tx ty : Nat} {cmd : Cmd} {g : GpuStrip}
    (h : packCmd ep tx ty cmd = Except.ok g) :
    g.x = tx + cmdOffX cmd ∧ g.y = ty := by
  cases cmd with
  | Fill c =>
    simp only [packCmd] at h
    cases hft : fillPaintTuple ep (tx + c.x) ty c.paint with
    | error e => rw [hft] at h; cases h
    | ok t =>
      obtain ⟨pt, pi, pd, xa, ya⟩ := t
      rw [hft] at h
      cases h
      exact ⟨rfl, rfl⟩
  | AlphaFill c =>
    simp only [packCmd] at h
    cases hft : alphaFillPaintTuple ep (tx + c.x) ty c.alpha_idx c.paint with
    | error e => rw [hft] at h; cases h
    | ok t =>
      obtain ⟨pt, pi, pd, xa, ya⟩ := t
      rw [hft] at h
      cases h
      exact ⟨rfl, rfl⟩
  | Unsupported => cases h

/-- Claim C2: every GpuStrip record produced from an `AlphaFill` command has
`dense_width` equal to its `width` (both being the command's width), and
every record produced from a `Fill` command or from a wide tile's
background has `dense_width = 0`. -/
theorem c2_dense_width_invariant :
    (∀ (ep : List EncodedPaint) (tx ty : Nat) (c : CmdAlphaFill) (g : GpuStrip),
        packCmd ep tx ty (Cmd.AlphaFill c) = Except.ok g →
          g.dense_width = g.width ∧ g.width = c.width) ∧
    (∀ (ep : List EncodedPaint) (tx ty : Nat) (c : CmdFill) (g : GpuStrip),
        packCmd ep tx ty (Cmd.Fill c) = Except.ok g → g.dense_width = 0) ∧
    (∀ x y bg, (bgStripOf x y bg).dense_width = 0) := by
  refine ⟨?_, ?_, ?_⟩
  · intro ep tx ty c g h
    simp only [packCmd] at h
    cases hft : alphaFillPaintTuple ep (tx + c.x) ty c.alpha_idx c.paint with
    | error e => rw [hft] at h; cases h
    | ok t =>
      obtain ⟨pt, pi, pd, xa, ya⟩ := t
      rw [hft] at h
      cases h
      exact ⟨rfl, rfl⟩
  · intro ep tx ty c g h
    simp only [packCmd] at h
    cases hft : fillPaintTuple ep (tx + c.x) ty c.paint with
    | error e => rw [hft] at h; cases h
    | ok t =>
      obtain ⟨pt, pi, pd, xa, ya⟩ := t
      rw [hft] at h
      cases h
      rfl
  · intro x y bg
    rfl

/-- Record produced for the witness of claim C2. -/
def gC2 : GpuStrip :=
  { x := 2, y := 0, width := 3, dense_width := 3, paint_type := 1, paint_index := 5,
    paint_data := 7, x_advance := (0, 0), y_advance := (0, 0) }

/-- Witness for claim C2 at a concrete alpha-fill command. -/
theorem c2_dense_width_invariant_witness :
    packCmd [] 0 0 (Cmd.AlphaFill ⟨2, 3, 20, Paint.Solid 7⟩) = Except.ok gC2 ∧
      (gC2.dense_width = gC2.width ∧ gC2.width = 3) :=
  ⟨by decide, c2_dense_width_invariant.1 [] 0 0 ⟨2, 3, 20, Paint.Solid 7⟩ gC2 (by decide)⟩

/-- Claim C4: an `AlphaFill` command with a solid paint, alpha offset `k`
and tile height `h` packs (when `k / h` fits in a `u16`) into a record with
`paint_type = 1` and `paint_index = k / h` (integer division). -/
theorem c4_alpha_column (ep : List EncodedPaint) (tx ty : Nat) (c : CmdAlphaFill)
    (color : Nat) (hp : c.paint = Paint.Solid color)
    (hfit : c.alpha_idx / Tile.HEIGHT ≤ 65535) :
    packCmd ep tx ty (Cmd.AlphaFill c) =
      Except.ok { x := tx + c.x, y := ty, width := c.width, dense_width := c.width,
                  paint_type := 1, paint_index := c.alpha_idx / Tile.HEIGHT,
                  paint_data := color, x_advance := (0, 0), y_advance := (0, 0) } := by
  simp only [packCmd, alphaFillPaintTuple, hp, if_pos hfit]

/-- Witness for claim C4 at a concrete command with alpha offset 20. -/
theorem c4_alpha_column_witness :
    (Paint.Solid 9 = Paint.Solid 9 ∧ 20 / Tile.HEIGHT ≤ 65535) ∧
      packCmd [] 7 4 (Cmd.AlphaFill ⟨1, 2, 20, Paint.Solid 9⟩) =
        Except.ok { x := 8, y := 4, width := 2, dense_width := 2,
                    paint_type := 1, paint_index := 5,
                    paint_data := 9, x_advance := (0, 0), y_advance := (0, 0) } :=
  ⟨⟨rfl, by decide⟩, c4_alpha_column [] 7 4 ⟨1, 2, 20, Paint.Solid 9⟩ 9 rfl (by decide)⟩

/-- The all-zero default tuple record the packer pushes for an indexed paint
it cannot resolve: opaque-solid tag, index 0, data word 0, zero advances. -/
def defaultPackedRecord (strip_x strip_y width dense_width : Nat) : GpuStrip :=
  { x := strip_x, y := strip_y, width := width, dense_width := dense_width,
    paint_type := 0, paint_index := 0, paint_data := 0,
    x_advance := (0, 0), y_advance := (0, 0) }

/-- Claim C1, amended: packing a `Fill` or `AlphaFill` command whose paint
is one of the variants outside `Solid`/`Indexed` is a hard failure with a
diagnostic; but a command whose paint is an index that misses the
encoded-paint table, or that resolves to an entry that is not an image, is
packed silently as the all-zero default record (opaque-solid tag, paint
index 0, paint data 0), with no failure. -/
theorem c1_unsupported_paint_policy :
    (∀ (ep : List EncodedPaint) (tx ty : Nat) (c : CmdFill),
        c.paint = Paint.Unsupported →
          packCmd ep tx ty (Cmd.Fill c) = Except.error ("unsupported paint type")) ∧
    (∀ (ep : List EncodedPaint) (tx ty : Nat) (c : CmdAlphaFill),
        c.paint = Paint.Unsupported →
          packCmd ep tx ty (Cmd.AlphaFill c) = Except.error ("unsupported paint type")) ∧
    (∀ (ep : List EncodedPaint) (tx ty : Nat) (c : CmdFill) (ip : IndexedPaint),
        c.paint = Paint.Indexed ip →
        (ep.get? ip.index = none ∨ ep.get? ip.index = some EncodedPaint.Unsupported) →
          packCmd ep tx ty (Cmd.Fill c) =
            Except.ok (defaultPackedRecord (tx + c.x) ty c.width 0)) ∧
    (∀ (ep : List EncodedPaint) (tx ty : Nat) (c : CmdAlphaFill) (ip : IndexedPaint),
        c.paint = Paint.Indexed ip →
        (ep.get? ip.index = none ∨ ep.get? ip.index = some EncodedPaint.Unsupported) →
          packCmd ep tx ty (Cmd.AlphaFill c) =
            Except.ok (defaultPackedRecord (tx + c.x) ty c.width c.width)) := by
  refine ⟨?_, ?_, ?_, ?_⟩
  · intro ep tx ty c hp
    simp only [packCmd, fillPaintTuple, hp]
  · intro ep tx ty c hp
    simp only [packCmd, alphaFillPaintTuple, hp]
  · intro ep tx ty c ip hp hmiss
    rcases hmiss with hmiss | hmiss <;>
      simp only [packCmd, fillPaintTuple, hp, hmiss, defaultPackedRecord]
  · intro ep tx ty c ip hp hmiss
    rcases hmiss with hmiss | hmiss <;>
      simp only [packCmd, alphaFillPaintTuple, hp, hmiss, defaultPackedRecord]

/-- Witness for the amended claim C1: an index into an empty table packs
silently as the default record. -/
theorem c1_unsupported_paint_policy_witness :
    (Paint.Indexed (⟨0⟩ : IndexedPaint) = Paint.Indexed ⟨0⟩ ∧
      ([] : List EncodedPaint).get? 0 = none) ∧
      packCmd [] 0 0 (Cmd.Fill ⟨4, 8, Paint.Indexed ⟨0⟩⟩) =
        Except.ok (defaultPackedRecord 4 0 8 0) :=
  ⟨⟨rfl, rfl⟩,
    c1_unsupported_paint_policy.2.2.1 [] 0 0 ⟨4, 8, Paint.Indexed ⟨0⟩⟩ ⟨0⟩ rfl (Or.inl rfl)⟩

/-- Scene exhibiting claim C1's failure: one wide tile holding a `Fill`
command whose paint indexes an empty encoded-paint table. -/
def sCE1 : Scene :=
  { Scene.new 8 4 with
    wide := ⟨[⟨0, [Cmd.Fill ⟨0, 8, Paint.Indexed ⟨0⟩⟩]⟩]⟩ }

/-- Counterexample to claim C1 as stated: packing a `Fill` whose paint
index misses the encoded-paint table is not a hard failure — the packer
succeeds and silently substitutes a default record (transparent color,
opaque-solid tag). -/
theorem c1_counterexample :
    Scene.prepare_render_data sCE1 =
      Except.ok { strips := [{ x := 0, y := 0, width := 8, dense_width := 0,
                               paint_type := 0, paint_index := 0, paint_data := 0,
                               x_advance := (0, 0), y_advance := (0, 0) }],
                  alphas := [] } := by
  decide

/-- Claim C5: `prepare_render_data` emits a background record for a wide
tile if and only if the tile's background is not fully transparent; the
record spans the tile's full width at the tile's device origin, is tagged
as the opaque solid variant with the background color packed as its 32-bit
RGBA data word, and has zero advance vectors; every further record of the
tile comes from one of its commands. -/
theorem c5_background_record (s : Scene) (row col : Nat) (wt : WideTile)
    (l : List GpuStrip)
    (hget : s.wide.tiles.get? (row * widePerRow s.width + col) = some wt)
    (hok : packTile s row col = Except.ok l) :
    (wt.bg ≠ 0 →
      ∃ rest, l = { x := col * WideTile.WIDTH, y := row * Tile.HEIGHT,
                    width := WideTile.WIDTH, dense_width := 0,
                    paint_type := 0, paint_index := 0, paint_data := wt.bg,
                    x_advance := ((0 : ℚ), (0 : ℚ)),
                    y_advance := ((0 : ℚ), (0 : ℚ)) } :: rest ∧
        ∀ g ∈ rest, ∃ c ∈ wt.cmds,
          packCmd s.encoded_paints (col * WideTile.WIDTH) (row * Tile.HEIGHT) c =
            Except.ok g) ∧
    (wt.bg = 0 →
      ∀ g ∈ l, ∃ c ∈ wt.cmds,
        packCmd s.encoded_paints (col * WideTile.WIDTH) (row * Tile.HEIGHT) c =
          Except.ok g) := by
  simp only [packTile, hget] at hok
  cases hcs : mapME (packCmd s.encoded_paints (col * WideTile.WIDTH) (row * Tile.HEIGHT))
      wt.cmds with
  | error e => rw [hcs] at hok; cases hok
  | ok cs =>
    rw [hcs] at hok
    cases hok
    have hmem : ∀ g ∈ cs, ∃ c ∈ wt.cmds,
        packCmd s.encoded_paints (col * WideTile.WIDTH) (row * Tile.HEIGHT) c =
          Except.ok g :=
      forall₂_mem_right (mapME_ok_forall₂ hcs)
    constructor
    · intro hbg
      refine ⟨cs, ?_, hmem⟩
      simp only [if_pos hbg, bgStripOf, List.singleton_append]
    · intro hbg
      simp only [hbg, ne_eq, not_true_eq_false, if_neg, List.nil_append, if_false]
      simpa using hmem

/-- Scene used by claim C5's witness: a single wide tile with a red
background and no commands. -/
def sC5 : Scene := { Scene.new 8 4 with wide := ⟨[⟨0xff0000ff, []⟩]⟩ }

/-- Record list produced for claim C5's witness. -/
def lC5 : List GpuStrip :=
  [{ x := 0, y := 0, width := WideTile.WIDTH, dense_width := 0,
     paint_type := 0, paint_index := 0, paint_data := 0xff0000ff,
     x_advance := (0, 0), y_advance := (0, 0) }]

/-- Witness for claim C5 at the concrete scene `sC5`. -/
theorem c5_background_record_witness :
    (sC5.wide.tiles.get? (0 * widePerRow sC5.width + 0) = some ⟨0xff0000ff, []⟩ ∧
      packTile sC5 0 0 = Except.ok lC5) ∧
    (((⟨0xff0000ff, []⟩ : WideTile).bg ≠ 0 →
      ∃ rest, lC5 = { x := 0 * WideTile.WIDTH, y := 0 * Tile.HEIGHT,
                      width := WideTile.WIDTH, dense_width := 0,
                      paint_type := 0, paint_index := 0,
                      paint_data := (⟨0xff0000ff, []⟩ : WideTile).bg,
                      x_advance := ((0 : ℚ), (0 : ℚ)),
                      y_advance := ((0 : ℚ), (0 : ℚ)) } :: rest ∧
        ∀ g ∈ rest, ∃ c ∈ (⟨0xff0000ff, []⟩ : WideTile).cmds,
          packCmd sC5.encoded_paints (0 * WideTile.WIDTH) (0 * Tile.HEIGHT) c =
            Except.ok g) ∧
    ((⟨0xff0000ff, []⟩ : WideTile).bg = 0 →
      ∀ g ∈ lC5, ∃ c ∈ (⟨0xff0000ff, []⟩ : WideTile).cmds,
        packCmd sC5.encoded_paints (0 * WideTile.WIDTH) (0 * Tile.HEIGHT) c =
          Except.ok g)) :=
  ⟨⟨by decide, by decide⟩,
    c5_background_record sC5 0 0 ⟨0xff0000ff, []⟩ lC5 (by decide) (by decide)⟩

/-- Claim C6: encoding the current paint maps a solid color to
`Paint::Solid` with no table entry and no other state change; an image
paint appends exactly one encoded entry whose transform is the scene
transform composed with the paint's own transform, returns `Paint::Indexed`
referencing that fresh entry, and queues that indexed paint for upload
exactly once (the queue grows by exactly the one reference to the fresh
table slot). -/
theorem c6_encode_current_paint (s : Scene) :
    (∀ color, s.paint = PaintType.Solid color →
        s.encode_current_paint = Except.ok (Paint.Solid color, s)) ∧
    (∀ i, s.paint = PaintType.Image i →
        s.encode_current_paint =
          Except.ok (Paint.Indexed ⟨s.encoded_paints.length⟩,
            { s with
                encoded_paints := s.encoded_paints ++
                  [EncodedPaint.Image
                    { transform := s.transform.mul i.transform,
                      extendModes := i.extendModes,
                      x_advance := (advanceVectors (s.transform.mul i.transform)).1,
                      y_advance := (advanceVectors (s.transform.mul i.transform)).2 }],
                upload_paints := s.upload_paints ++ [⟨s.encoded_paints.length⟩] })) := by
  constructor
  · intro color hp
    simp only [Scene.encode_current_paint, hp]
  · intro i hp
    simp only [Scene.encode_current_paint, hp, encode_into]

/-- Image paint used by claim C6's witness. -/
def iC6 : ImagePaint := { transform := ⟨2, 0, 0, 2, 3, 4⟩, extendModes := (0, 1), image := 5 }

/-- Scene used by claim C6's witness: current paint is the image paint
`iC6` under a translation transform. -/
def sC6 : Scene :=
  { Scene.new 8 4 with paint := PaintType.Image iC6, transform := ⟨1, 0, 0, 1, 10, 20⟩ }

/-- Witness for claim C6 at the concrete scene `sC6`. -/
theorem c6_encode_current_paint_witness :
    sC6.paint = PaintType.Image iC6 ∧
      sC6.encode_current_paint =
        Except.ok (Paint.Indexed ⟨sC6.encoded_paints.length⟩,
          { sC6 with
              encoded_paints := sC6.encoded_paints ++
                [EncodedPaint.Image
                  { transform := sC6.transform.mul iC6.transform,
                    extendModes := iC6.extendModes,
                    x_advance := (advanceVectors (sC6.transform.mul iC6.transform)).1,
                    y_advance := (advanceVectors (sC6.transform.mul iC6.transform)).2 }],
              upload_paints := sC6.upload_paints ++ [⟨sC6.encoded_paints.length⟩] }) :=
  ⟨rfl, (c6_encode_current_paint sC6).2 iC6 rfl⟩

/-- Claim C9: `reset` leaves the encoded-paint table and the pending-upload
queue unchanged, while the wide-tile grid (every tile back to a fully
transparent background and an empty command list, grid shape kept), the
alpha buffer, the line buffer, the tile buffer and the strip buffer are all
cleared. -/
theorem c9_reset_preserves_paint_tables (s : Scene) :
    s.reset.encoded_paints = s.encoded_paints ∧
    s.reset.upload_paints = s.upload_paints ∧
    s.reset.wide.tiles = s.wide.tiles.map (fun _ => WideTile.empty) ∧
    s.reset.alphas = [] ∧
    s.reset.line_buf = [] ∧
    s.reset.tiles = [] ∧
    s.reset.strip_buf = [] := by
  refine ⟨rfl, rfl, rfl, rfl, rfl, rfl, rfl⟩

theorem flatten_map_nil {α β : Type} (l : List α) :
    (l.map (fun _ => ([] : List β))).flatten = [] := by
  induction l with
  | nil => rfl
  | cons a l ih => simp [ih]

/-- Claim C8: on a scene whose wide-tile grid covers the surface, `reset`
followed by `prepare_render_data` with no intervening draws yields no
records and an empty alpha buffer, whatever was drawn before the reset. -/
theorem c8_reset_then_prepare (s : Scene)
    (hlen : widePerCol s.height * widePerRow s.width ≤ s.wide.tiles.length) :
    s.reset.prepare_render_data = Except.ok { strips := [], alphas := [] } := by
  have htiles : s.reset.wide.tiles = s.wide.tiles.map (fun _ => WideTile.empty) := rfl
  have hTile : ∀ row ∈ List.range (widePerCol s.height),
      ∀ col ∈ List.range (widePerRow s.width),
      packTile s.reset row col = Except.ok [] := by
    intro row hrow col hcol
    rw [List.mem_range] at hrow hcol
    have hidx : row * widePerRow s.width + col < s.wide.tiles.length := by
      calc row * widePerRow s.width + col
          < (row + 1) * widePerRow s.width := by
            rw [Nat.succ_mul]; exact Nat.add_lt_add_left hcol _
        _ ≤ widePerCol s.height * widePerRow s.width := Nat.mul_le_mul_right _ hrow
        _ ≤ s.wide.tiles.length := hlen
    have hget : s.reset.wide.tiles.get? (row * widePerRow s.reset.width + col) =
        some WideTile.empty := by
      show (s.wide.tiles.map (fun _ => WideTile.empty)).get?
        (row * widePerRow s.width + col) = some WideTile.empty
      rw [List.get?_map]
      cases hg : s.wide.tiles.get? (row * widePerRow s.width + col) with
      | none => exact absurd (List.get?_eq_none.mp hg) (Nat.not_le.mpr hidx)
      | some t => rfl
    simp only [packTile] at hget ⊢
    rw [hget]
    rfl
  have hRow : ∀ row ∈ List.range (widePerCol s.height),
      packRow s.reset row = Except.ok [] := by
    intro row hrow
    have hm := mapME_ok_of_forall (g := fun _ => ([] : List GpuStrip))
      (fun col hcol => hTile row hrow col hcol)
    show packRow s.reset row = Except.ok []
    unfold packRow
    rw [show widePerRow s.reset.width = widePerRow s.width from rfl, hm]
    show Except.ok (List.map (fun _ => ([] : List GpuStrip))
      (List.range (widePerRow s.width))).flatten = Except.ok []
    rw [flatten_map_nil]
  have hm := mapME_ok_of_forall (g := fun _ => ([] : List GpuStrip)) hRow
  show Scene.prepare_render_data s.reset = Except.ok { strips := [], alphas := [] }
  unfold Scene.prepare_render_data
  rw [show widePerCol s.reset.height = widePerCol s.height from rfl, hm]
  show Except.ok (RenderData.mk (List.map (fun _ => ([] : List GpuStrip))
      (List.range (widePerCol s.height))).flatten s.reset.alphas) =
    Except.ok (RenderData.mk [] [])
  rw [flatten_map_nil]
  rfl

/-- Scene used by claim C8's witness: one wide tile with prior frame
content (a background, a command the packer would reject, alpha bytes). -/
def sC8 : Scene :=
  { Scene.new 8 4 with
    wide := ⟨[⟨17, [Cmd.Unsupported]⟩]⟩
    alphas := [1, 2, 3] }

/-- Witness for claim C8 at the concrete scene `sC8`. -/
theorem c8_reset_then_prepare_witness :
    widePerCol sC8.height * widePerRow sC8.width ≤ sC8.wide.tiles.length ∧
      sC8.reset.prepare_render_data = Except.ok { strips := [], alphas := [] } :=
  ⟨by decide, c8_reset_then_prepare sC8 (by decide)⟩

/-- A concrete geometry library used by witnesses: flattening yields one
line per path element, tiling and strip generation produce nothing, and
the compositor leaves the grid unchanged. -/
def Gtriv : GeomLib :=
  { flattenFillNew := fun p _ => p.elements.map (fun n => ⟨(n : ℚ), 0, (n : ℚ), 1⟩)
    flattenStrokeNew := fun p _ _ => p.elements.map (fun n => ⟨(n : ℚ), 0, (n : ℚ), 1⟩)
    rectToPath := fun _ _ => ⟨[0]⟩
    makeTiles := fun _ _ _ => []
    sortTiles := fun t => t
    stripRender := fun _ _ _ => ([], [])
    wideGenerate := fun _ _ _ w => w }

theorem encode_ok_fields {s : Scene} {pr : Paint} {s2 : Scene}
    (h : s.encode_current_paint = Except.ok (pr, s2)) :
    s2.line_buf = s.line_buf ∧ s2.width = s.width ∧ s2.height = s.height ∧
    s2.fill_rule = s.fill_rule ∧ s2.wide = s.wide ∧ s2.alphas = s.alphas ∧
    s2.tiles = s.tiles ∧ s2.strip_buf = s.strip_buf ∧ s2.stroke = s.stroke ∧
    s2.transform = s.transform := by
  cases hp : s.paint with
  | Solid color =>
    simp only [Scene.encode_current_paint, hp] at h
    cases h
    exact ⟨rfl, rfl, rfl, rfl, rfl, rfl, rfl, rfl, rfl, rfl⟩
  | Image i =>
    simp only [Scene.encode_current_paint, hp, encode_into] at h
    cases h
    exact ⟨rfl, rfl, rfl, rfl, rfl, rfl, rfl, rfl, rfl, rfl⟩
  | Unsupported =>
    simp only [Scene.encode_current_paint, hp] at h
    cases h

theorem render_path_line_buf (G : GeomLib) (s : Scene) (rule : Fill) (pr : Paint) :
    (Scene.render_path G s rule pr).line_buf = s.line_buf := rfl

theorem fill_path_line_buf (G : GeomLib) (s : Scene) (p : BezPath) :
    ∀ s2, Scene.fill_path G s p = Except.ok s2 →
      s2.line_buf = s.line_buf ++ G.flattenFillNew p s.transform := by
  intro s2 h
  simp only [Scene.fill_path] at h
  cases henc : Scene.encode_current_paint
      { s with line_buf := s.line_buf ++ G.flattenFillNew p s.transform } with
  | error e => rw [henc] at h; cases h
  | ok pas =>
    obtain ⟨pr, s1⟩ := pas
    rw [henc] at h
    cases h
    rw [render_path_line_buf]
    exact (encode_ok_fields henc).1

theorem stroke_path_line_buf (G : GeomLib) (s : Scene) (p : BezPath) :
    ∀ s2, Scene.stroke_path G s p = Except.ok s2 →
      s2.line_buf = s.line_buf ++ G.flattenStrokeNew p s.stroke s.transform := by
  intro s2 h
  simp only [Scene.stroke_path] at h
  cases henc : Scene.encode_current_paint
      { s with line_buf := s.line_buf ++ G.flattenStrokeNew p s.stroke s.transform } with
  | error e => rw [henc] at h; cases h
  | ok pas =>
    obtain ⟨pr, s1⟩ := pas
    rw [henc] at h
    cases h
    rw [render_path_line_buf]
    exact (encode_ok_fields henc).1

theorem fill_glyph_line_buf (G : GeomLib) (s : Scene) (gl : PreparedGlyph) :
    ∀ s2, Scene.fill_glyph G s gl = Except.ok s2 →
      s2.line_buf = s.line_buf ++ G.flattenFillNew gl.path gl.transform := by
  intro s2 h
  simp only [Scene.fill_glyph] at h
  cases henc : Scene.encode_current_paint
      { s with line_buf := s.line_buf ++ G.flattenFillNew gl.path gl.transform } with
  | error e => rw [henc] at h; cases h
  | ok pas =>
    obtain ⟨pr, s1⟩ := pas
    rw [henc] at h
    cases h
    rw [render_path_line_buf]
    exact (encode_ok_fields henc).1

theorem stroke_glyph_line_buf (G : GeomLib) (s : Scene) (gl : PreparedGlyph) :
    ∀ s2, Scene.stroke_glyph G s gl = Except.ok s2 →
      s2.line_buf = s.line_buf ++ G.flattenStrokeNew gl.path s.stroke gl.transform := by
  intro s2 h
  simp only [Scene.stroke_glyph] at h
  cases henc : Scene.encode_current_paint
      { s with line_buf := s.line_buf ++ G.flattenStrokeNew gl.path s.stroke gl.transform } with
  | error e => rw [henc] at h; cases h
  | ok pas =>
    obtain ⟨pr, s1⟩ := pas
    rw [henc] at h
    cases h
    rw [render_path_line_buf]
    exact (encode_ok_fields henc).1

/-- Claim C7, amended: when a draw call (path fill/stroke, rect fill/stroke,
glyph fill/stroke) returns, the line buffer has NOT been cleared — it holds
its previous contents plus the lines flattened for that draw; it is only
emptied by a scene reset or overwritten by a later draw's flattening. -/
theorem c7_line_buffer_persists (G : GeomLib) (s : Scene) (p : BezPath)
    (gl : PreparedGlyph) (r : Rect) :
    (∀ s2, Scene.fill_path G s p = Except.ok s2 →
        s2.line_buf = s.line_buf ++ G.flattenFillNew p s.transform) ∧
    (∀ s2, Scene.stroke_path G s p = Except.ok s2 →
        s2.line_buf = s.line_buf ++ G.flattenStrokeNew p s.stroke s.transform) ∧
    (∀ s2, Scene.fill_rect G s r = Except.ok s2 →
        s2.line_buf = s.line_buf ++
          G.flattenFillNew (G.rectToPath r DEFAULT_TOLERANCE) s.transform) ∧
    (∀ s2, Scene.stroke_rect G s r = Except.ok s2 →
        s2.line_buf = s.line_buf ++
          G.flattenStrokeNew (G.rectToPath r DEFAULT_TOLERANCE) s.stroke s.transform) ∧
    (∀ s2, Scene.fill_glyph G s gl = Except.ok s2 →
        s2.line_buf = s.line_buf ++ G.flattenFillNew gl.path gl.transform) ∧
    (∀ s2, Scene.stroke_glyph G s gl = Except.ok s2 →
        s2.line_buf = s.line_buf ++ G.flattenStrokeNew gl.path s.stroke gl.transform) :=
  ⟨fill_path_line_buf G s p, stroke_path_line_buf G s p,
    fill_path_line_buf G s (G.rectToPath r DEFAULT_TOLERANCE),
    stroke_path_line_buf G s (G.rectToPath r DEFAULT_TOLERANCE),
    fill_glyph_line_buf G s gl, stroke_glyph_line_buf G s gl⟩

/-- Counterexample to claim C7 as stated: after `fill_path` returns, the
line buffer still contains the line flattened for that draw — it is not
cleared. -/
theorem c7_counterexample :
    (Scene.fill_path Gtriv (Scene.new 8 4) ⟨[3]⟩).map (fun t => t.line_buf) =
        Except.ok [⟨3, 0, 3, 1⟩] ∧
      ([(⟨3, 0, 3, 1⟩ : Line)] : List Line) ≠ [] := by
  constructor
  · decide
  · decide

/-- Scene produced by claim C7's witness draw. -/
def sC7w : Scene := { Scene.new 4 4 with line_buf := [⟨2, 0, 2, 1⟩] }

/-- Witness for the amended claim C7 at a concrete fill. -/
theorem c7_line_buffer_persists_witness :
    Scene.fill_path Gtriv (Scene.new 4 4) ⟨[2]⟩ = Except.ok sC7w ∧
      sC7w.line_buf = (Scene.new 4 4).line_buf ++
        Gtriv.flattenFillNew ⟨[2]⟩ (Scene.new 4 4).transform :=
  ⟨by decide,
    (c7_line_buffer_persists Gtriv (Scene.new 4 4) ⟨[2]⟩ ⟨⟨[2]⟩, Affine.IDENTITY⟩
      ⟨0, 0, 1, 1⟩).1 sC7w (by decide)⟩

/-- Claim C10: stroking renders with the `NonZero` fill rule regardless of
the fill rule stored by `set_fill_rule`: a stroke from a scene with any
stored rule yields the same result up to the stored-rule field, the stored
rule survives the stroke unchanged, and (for a solid paint) the stroke is
exactly a `render_path` invocation at `Fill::NonZero`, while a fill is a
`render_path` invocation at the stored rule. -/
theorem c10_stroke_uses_nonzero (G : GeomLib) (s : Scene) (p : BezPath)
    (gl : PreparedGlyph) (r : Fill) :
    (Scene.stroke_path G (Scene.set_fill_rule s r) p =
        (Scene.stroke_path G s p).map (fun t => Scene.set_fill_rule t r)) ∧
    (Scene.stroke_glyph G (Scene.set_fill_rule s r) gl =
        (Scene.stroke_glyph G s gl).map (fun t => Scene.set_fill_rule t r)) ∧
    (∀ s2, Scene.stroke_path G s p = Except.ok s2 → s2.fill_rule = s.fill_rule) ∧
    (∀ s2, Scene.stroke_glyph G s gl = Except.ok s2 → s2.fill_rule = s.fill_rule) ∧
    (∀ color, s.paint = PaintType.Solid color →
        Scene.stroke_path G s p =
          Except.ok (Scene.render_path G
            { s with line_buf := s.line_buf ++ G.flattenStrokeNew p s.stroke s.transform }
            Fill.NonZero (Paint.Solid color))) ∧
    (∀ color, s.paint = PaintType.Solid color →
        Scene.fill_path G s p =
          Except.ok (Scene.render_path G
            { s with line_buf := s.line_buf ++ G.flattenFillNew p s.transform }
            s.fill_rule (Paint.Solid color))) := by
  refine ⟨?_, ?_, ?_, ?_, ?_, ?_⟩
  · cases hp : s.paint with
    | Solid color =>
      simp [Scene.stroke_path, Scene.set_fill_rule, Scene.encode_current_paint, hp,
        Scene.render_path, Except.map]
    | Image i =>
      simp [Scene.stroke_path, Scene.set_fill_rule, Scene.encode_current_paint, hp,
        Scene.render_path, encode_into, Except.map]
    | Unsupported =>
      simp [Scene.stroke_path, Scene.set_fill_rule, Scene.encode_current_paint, hp, Except.map]
  · cases hp : s.paint with
    | Solid color =>
      simp [Scene.stroke_glyph, Scene.set_fill_rule, Scene.encode_current_paint, hp,
        Scene.render_path, Except.map]
    | Image i =>
      simp [Scene.stroke_glyph, Scene.set_fill_rule, Scene.encode_current_paint, hp,
        Scene.render_path, encode_into, Except.map]
    | Unsupported =>
      simp [Scene.stroke_glyph, Scene.set_fill_rule, Scene.encode_current_paint, hp, Except.map]
  · intro s2 h
    simp only [Scene.stroke_path] at h
    cases henc : Scene.encode_current_paint
        { s with line_buf := s.line_buf ++ G.flattenStrokeNew p s.stroke s.transform } with
    | error e => rw [henc] at h; cases h
    | ok pas =>
      obtain ⟨pr, s1⟩ := pas
      rw [henc] at h
      cases h
      exact (encode_ok_fields henc).2.2.2.1
  · intro s2 h
    simp only [Scene.stroke_glyph] at h
    cases henc : Scene.encode_current_paint
        { s with line_buf := s.line_buf ++ G.flattenStrokeNew gl.path s.stroke gl.transform } with
    | error e => rw [henc] at h; cases h
    | ok pas =>
      obtain ⟨pr, s1⟩ := pas
      rw [henc] at h
      cases h
      exact (encode_ok_fields henc).2.2.2.1
  · intro color hp
    simp [Scene.stroke_path, Scene.encode_current_paint, hp]
  · intro color hp
    simp [Scene.fill_path, Scene.encode_current_paint, hp]

/-- Scene used by claim C10's witness: default scene with the fill rule set
to `EvenOdd` via `set_fill_rule`. -/
def sC10 : Scene := Scene.set_fill_rule (Scene.new 4 4) Fill.EvenOdd

/-- Witness for claim C10: stroking under an `EvenOdd` stored rule is a
`render_path` at `Fill::NonZero`. -/
theorem c10_stroke_uses_nonzero_witness :
    sC10.paint = PaintType.Solid BLACK ∧
      Scene.stroke_path Gtriv sC10 ⟨[1]⟩ =
        Except.ok (Scene.render_path Gtriv
          { sC10 with line_buf := sC10.line_buf ++
              Gtriv.flattenStrokeNew ⟨[1]⟩ sC10.stroke sC10.transform }
          Fill.NonZero (Paint.Solid BLACK)) :=
  ⟨rfl,
    (c10_stroke_uses_nonzero Gtriv sC10 ⟨[1]⟩ ⟨⟨[1]⟩, Affine.IDENTITY⟩
      Fill.NonZero).2.2.2.2.1 BLACK rfl⟩

/-- First draw for claim C3's counterexample: a span on the right side of
wide tile 0. -/
def drawCE3a : List (Nat × Cmd) := [(0, Cmd.Fill ⟨100, 8, Paint.Solid 255⟩)]

/-- Second draw for claim C3's counterexample: a span on the left side of
the same wide tile. -/
def drawCE3b : List (Nat × Cmd) := [(0, Cmd.Fill ⟨5, 8, Paint.Solid 255⟩)]

/-- Scene reached by the two draws of claim C3's counterexample. -/
def sCE3 : Scene :=
  { Scene.new 256 4 with
    wide := applyDraw drawCE3b (applyDraw drawCE3a (Scene.new 256 4).wide) }

/-- Output packed for `sCE3`. -/
def rdCE3 : RenderData :=
  { strips := [{ x := 100, y := 0, width := 8, dense_width := 0, paint_type := 0,
                 paint_index := 0, paint_data := 255, x_advance := (0, 0), y_advance := (0, 0) },
               { x := 5, y := 0, width := 8, dense_width := 0, paint_type := 0,
                 paint_index := 0, paint_data := 255, x_advance := (0, 0), y_advance := (0, 0) }],
    alphas := [] }

/-- Counterexample to claim C3 as stated: after two draws into the same
wide tile (right span first, left span second), the packed records' (y, x)
pairs are not non-decreasing — commands keep draw order, not x order. -/
theorem c3_counterexample :
    Scene.prepare_render_data sCE3 = Except.ok rdCE3 ∧
      ¬ List.Pairwise rowMajorLE rdCE3.strips := by
  constructor
  · decide
  · decide

theorem packTile_ok_facts {s : Scene} {row col : Nat} {l : List GpuStrip}
    (hok : packTile s row col = Except.ok l)
    (hsort : ∀ t ∈ s.wide.tiles, List.Pairwise (fun c1 c2 => cmdOffX c1 ≤ cmdOffX c2) t.cmds)
    (hbnd : ∀ t ∈ s.wide.tiles, ∀ c ∈ t.cmds, cmdOffX c < WideTile.WIDTH) :
    (∀ g ∈ l, g.y = row * Tile.HEIGHT ∧ col * WideTile.WIDTH ≤ g.x ∧
      g.x < col * WideTile.WIDTH + WideTile.WIDTH) ∧
    List.Pairwise (fun a b => a.x ≤ b.x) l := by
  simp only [packTile] at hok
  cases hget : s.wide.tiles.get? (row * widePerRow s.width + col) with
  | none => rw [hget] at hok; cases hok
  | some wt =>
    simp only [hget] at hok
    have hmem : wt ∈ s.wide.tiles := List.get?_mem hget
    cases hcs : mapME (packCmd s.encoded_paints (col * WideTile.WIDTH) (row * Tile.HEIGHT))
        wt.cmds with
    | error e => rw [hcs] at hok; cases hok
    | ok cs =>
      rw [hcs] at hok
      cases hok
      have hf2 := mapME_ok_forall₂ hcs
      have hcsFacts : ∀ g ∈ cs, g.y = row * Tile.HEIGHT ∧ col * WideTile.WIDTH ≤ g.x ∧
          g.x < col * WideTile.WIDTH + WideTile.WIDTH := by
        intro g hg
        obtain ⟨c, hc, hpack⟩ := forall₂_mem_right hf2 g hg
        obtain ⟨hx, hy⟩ := packCmd_ok_xy hpack
        refine ⟨hy, ?_, ?_⟩
        · rw [hx]; exact Nat.le_add_right _ _
        · rw [hx]; exact Nat.add_lt_add_left (hbnd wt hmem c hc) _
      have hcsPair : List.Pairwise (fun a b => a.x ≤ b.x) cs := by
        refine forall₂_pairwise hf2 (hsort wt hmem) ?_
        intro c1 g1 c2 g2 h1 h2 hr
        rw [(packCmd_ok_xy h1).1, (packCmd_ok_xy h2).1]
        exact Nat.add_le_add_left hr _
      by_cases hbg : wt.bg ≠ 0
      · rw [if_pos hbg]
        constructor
        · intro g hg
          rcases List.mem_append.mp hg with hg1 | hg2
          · rcases List.mem_singleton.mp hg1 with rfl
            exact ⟨rfl, Nat.le_refl _, by
              show col * WideTile.WIDTH < col * WideTile.WIDTH + WideTile.WIDTH
              simp [WideTile.WIDTH]⟩
          · exact hcsFacts g hg2
        · refine List.pairwise_append.mpr ⟨List.pairwise_singleton _ _, hcsPair, ?_⟩
          intro a ha b hb
          rcases List.mem_singleton.mp ha with rfl
          exact (hcsFacts b hb).2.1
      · rw [if_neg hbg]
        exact ⟨fun g hg => hcsFacts g (by simpa using hg), by simpa using hcsPair⟩

theorem packRow_ok_facts {s : Scene} {row : Nat} {l : List GpuStrip}
    (hok : packRow s row = Except.ok l)
    (hsort : ∀ t ∈ s.wide.tiles, List.Pairwise (fun c1 c2 => cmdOffX c1 ≤ cmdOffX c2) t.cmds)
    (hbnd : ∀ t ∈ s.wide.tiles, ∀ c ∈ t.cmds, cmdOffX c < WideTile.WIDTH) :
    (∀ g ∈ l, g.y = row * Tile.HEIGHT) ∧
    List.Pairwise (fun a b => a.x ≤ b.x) l := by
  simp only [packRow] at hok
  cases hts : mapME (packTile s row) (List.range (widePerRow s.width)) with
  | error e => rw [hts] at hok; cases hok
  | ok ts =>
    rw [hts] at hok
    cases hok
    have hf2 := mapME_ok_forall₂ hts
    have hTiles : ∀ tl ∈ ts, ∃ col ∈ List.range (widePerRow s.width),
        packTile s row col = Except.ok tl := by
      intro tl htl
      obtain ⟨col, hcol, hpt⟩ := forall₂_mem_right hf2 tl htl
      exact ⟨col, hcol, hpt⟩
    constructor
    · intro g hg
      obtain ⟨tl, htl, hgtl⟩ := List.mem_flatten.mp hg
      obtain ⟨col, _, hpt⟩ := hTiles tl htl
      exact ((packTile_ok_facts hpt hsort hbnd).1 g hgtl).1
    · refine List.pairwise_flatten.mpr ⟨?_, ?_⟩
      · intro tl htl
        obtain ⟨col, _, hpt⟩ := hTiles tl htl
        exact (packTile_ok_facts hpt hsort hbnd).2
      · refine forall₂_pairwise hf2 (List.pairwise_lt_range _) ?_
        intro c1 tl1 c2 tl2 h1 h2 hlt a ha b hb
        have ha2 := ((packTile_ok_facts h1 hsort hbnd).1 a ha).2.2
        have hb2 := ((packTile_ok_facts h2 hsort hbnd).1 b hb).2.1
        have hstep : c1 * WideTile.WIDTH + WideTile.WIDTH ≤ c2 * WideTile.WIDTH := by
          have := Nat.succ_le_of_lt hlt
          calc c1 * WideTile.WIDTH + WideTile.WIDTH = (c1 + 1) * WideTile.WIDTH := by
                rw [Nat.succ_mul]
            _ ≤ c2 * WideTile.WIDTH := Nat.mul_le_mul_right _ this
        exact Nat.le_trans (Nat.le_trans (Nat.le_of_lt ha2) hstep) hb2

/-- Claim C3, amended: the packed records are in row-major wide-tile order —
the (y, x) pairs are non-decreasing across the whole output list — provided
every wide tile's command list has non-decreasing in-tile x offsets that lie
within the wide-tile width (as holds after a single draw); in general,
commands within one wide tile keep draw order rather than x order, so (y, x)
monotonicity can fail across multiple draws. -/
theorem c3_row_major_sorted (s : Scene) (rd : RenderData)
    (hsort : ∀ t ∈ s.wide.tiles, List.Pairwise (fun c1 c2 => cmdOffX c1 ≤ cmdOffX c2) t.cmds)
    (hbnd : ∀ t ∈ s.wide.tiles, ∀ c ∈ t.cmds, cmdOffX c < WideTile.WIDTH)
    (hok : s.prepare_render_data = Except.ok rd) :
    List.Pairwise rowMajorLE rd.strips := by
  simp only [Scene.prepare_render_data] at hok
  cases hrs : mapME (packRow s) (List.range (widePerCol s.height)) with
  | error e => rw [hrs] at hok; cases hok
  | ok rs =>
    rw [hrs] at hok
    cases hok
    have hf2 := mapME_ok_forall₂ hrs
    refine List.pairwise_flatten.mpr ⟨?_, ?_⟩
    · intro rl hrl
      obtain ⟨row, _, hpr⟩ := forall₂_mem_right hf2 rl hrl
      obtain ⟨hy, hx⟩ := packRow_ok_facts hpr hsort hbnd
      refine List.Pairwise.imp_of_mem ?_ hx
      intro a b ha hb hab
      exact Or.inr ⟨(hy a ha).trans (hy b hb).symm, hab⟩
    · refine forall₂_pairwise hf2 (List.pairwise_lt_range _) ?_
      intro r1 rl1 r2 rl2 h1 h2 hlt a ha b hb
      have hya := (packRow_ok_facts h1 hsort hbnd).1 a ha
      have hyb := (packRow_ok_facts h2 hsort hbnd).1 b hb
      left
      rw [hya, hyb]
      have hpos : 0 < Tile.HEIGHT := by decide
      exact Nat.mul_lt_mul_of_lt_of_le hlt (Nat.le_refl _) hpos

/-- Scene used by claim C3's witness: two wide-tile rows of two columns,
with per-tile command lists sorted by x offset. -/
def sW3 : Scene :=
  { Scene.new 300 8 with
    wide := ⟨[⟨9, [Cmd.Fill ⟨3, 4, Paint.Solid 255⟩, Cmd.AlphaFill ⟨10, 2, 8, Paint.Solid 7⟩]⟩,
              ⟨0, [Cmd.Fill ⟨1, 2, Paint.Solid 255⟩]⟩,
              ⟨0, []⟩,
              ⟨5, []⟩]⟩ }

/-- Output packed for `sW3`. -/
def rdW3 : RenderData :=
  { strips := [{ x := 0, y := 0, width := 256, dense_width := 0, paint_type := 0,
                 paint_index := 0, paint_data := 9, x_advance := (0, 0), y_advance := (0, 0) },
               { x := 3, y := 0, width := 4, dense_width := 0, paint_type := 0,
                 paint_index := 0, paint_data := 255, x_advance := (0, 0), y_advance := (0, 0) },
               { x := 10, y := 0, width := 2, dense_width := 2, paint_type := 1,
                 paint_index := 2, paint_data := 7, x_advance := (0, 0), y_advance := (0, 0) },
               { x := 257, y := 0, width := 2, dense_width := 0, paint_type := 0,
                 paint_index := 0, paint_data := 255, x_advance := (0, 0), y_advance := (0, 0) },
               { x := 256, y := 4, width := 256, dense_width := 0, paint_type := 0,
                 paint_index := 0, paint_data := 5, x_advance := (0, 0), y_advance := (0, 0) }],
    alphas := [] }

/-- Witness for the amended claim C3 at the concrete scene `sW3`. -/
theorem c3_row_major_sorted_witness :
    ((∀ t ∈ sW3.wide.tiles, List.Pairwise (fun c1 c2 => cmdOffX c1 ≤ cmdOffX c2) t.cmds) ∧
      (∀ t ∈ sW3.wide.tiles, ∀ c ∈ t.cmds, cmdOffX c < WideTile.WIDTH) ∧
      sW3.prepare_render_data = Except.ok rdW3) ∧
    List.Pairwise rowMajorLE rdW3.strips :=
  ⟨⟨by decide, by decide, by decide⟩,
    c3_row_major_sorted sW3 rdW3 (by decide) (by decide) (by decide)⟩
